import Mathlib

/-!
Verification of the vedur Home Assistant integration's core pipeline
(custom_components/vedur/coordinator.py and const.py).

Modelling conventions:
* XML documents are modelled after ElementTree's parsed form: an `Elem` carries
  the tag (with any XML namespace already expanded into the tag, as
  ElementTree does), the attribute list, the text node and the child list.
  Text-level parsing (ElementTree.fromstring) is abstracted by its outcome,
  `Except Unit Elem`.
* Python's truthiness of an Element (`bool(elem)` is `len(elem) != 0`, i.e.
  "has children", on the Python versions this integration runs on) is modelled
  by `Elem.truthy`; the source's `find(a) or find(b)` idiom goes through
  `Elem.findOr` which reproduces it exactly.
* Machine floats are modelled by exact rationals.  The single transcendental
  operation, `math.pow(wind_kmh, 0.16)`, is not expressible over ℚ and is
  passed in as an abstract parameter `pow016`; the specification's formula is
  stated in the same parameter, so theorems compare the two algebraic forms.
  `round(x, 1)` is modelled by `round1` (round-half-even at one decimal, as
  Python's round); exact float ties are immaterial to the claims.
* Network fetches are modelled by their outcomes: `Except Unit _` where the
  error constructor stands for a raised exception (transport error or an
  asyncio timeout), and an ok response carries its HTTP status code.
* The iteration order of `set(conditions)` in the daily aggregation is
  hash-dependent at runtime and cannot be computed by the embedding; it is
  passed in as a parameter `enum`, with `IsSetEnum` characterising the orders
  the runtime can produce (an enumeration of the distinct elements).
-/

namespace Vedur

/-! ## Python string primitives, modelled structurally on the character list -/

/-- Python str.lower for the ASCII range the feeds use. -/
def lowerStr (s : String) : String := ⟨s.data.map Char.toLower⟩

/-- Python str.upper for the ASCII range the feeds use. -/
def upperStr (s : String) : String := ⟨s.data.map Char.toUpper⟩

/-- Python str.strip. -/
def stripStr (s : String) : String :=
  ⟨((s.data.dropWhile Char.isWhitespace).reverse.dropWhile Char.isWhitespace).reverse⟩

/-- Python s.startswith(p). -/
def startsStr (s p : String) : Bool := p.data.isPrefixOf s.data

/-- Python "needle in haystack" substring test. -/
def subStr (needle hay : String) : Bool := go hay.data
where
  go : List Char → Bool
    | [] => needle.data.isPrefixOf []
    | c :: cs => needle.data.isPrefixOf (c :: cs) || go cs

/-- Python s.endswith(p). -/
def endsStr (s p : String) : Bool := p.data.reverse.isPrefixOf s.data.reverse

/-! ## ElementTree model -/

/-- A parsed XML element as ElementTree represents it (namespaces expanded
into the tag). -/
structure Elem where
  tag : String
  attrs : List (String × String)
  text : Option String
  children : List Elem

/-- Python truthiness of an Element: `bool(elem)` is `len(elem) != 0`. -/
def Elem.truthy (e : Elem) : Bool := !e.children.isEmpty

/-- element.find(tag): first direct child with the tag. -/
def Elem.find (e : Elem) (tag : String) : Option Elem :=
  e.children.find? (fun c => c.tag == tag)

/-- element.findall(tag): all direct children with the tag, document order. -/
def Elem.findall (e : Elem) (tag : String) : List Elem :=
  e.children.filter (fun c => c.tag == tag)

/-- Helper for the descendant axis: first element with the tag in a forest,
pre-order (document order). -/
def findDescList (tag : String) : List Elem → Option Elem
  | [] => none
  | c :: cs =>
    if c.tag == tag then some c
    else
      match findDescList tag c.children with
      | some r => some r
      | none => findDescList tag cs
termination_by l => sizeOf l
decreasing_by
  all_goals (cases c; simp; try omega)

/-- element.find(".//tag"): first strict descendant with the tag. -/
def Elem.findDesc (e : Elem) (tag : String) : Option Elem :=
  findDescList tag e.children

/-- Helper for the descendant axis: all elements with the tag in a forest,
pre-order (document order). -/
def findallDescList (tag : String) : List Elem → List Elem
  | [] => []
  | c :: cs =>
    (if c.tag == tag then [c] else []) ++
      findallDescList tag c.children ++ findallDescList tag cs
termination_by l => sizeOf l
decreasing_by
  all_goals (cases c; simp; try omega)

/-- element.findall(".//tag"): all strict descendants with the tag. -/
def Elem.findallDesc (e : Elem) (tag : String) : List Elem :=
  findallDescList tag e.children

/-- Python "elem.find(a) or elem.find(b)": when the first find succeeds, its
result is kept only if the element is truthy (has children); otherwise the
second find's result is returned as-is.  This mirrors the source's use of
`or` on Element values. -/
def Elem.findOr (e : Elem) (a b : String) : Option Elem :=
  match e.find a with
  | some c => if c.truthy then some c else e.find b
  | none => e.find b

/-- Python "root.find(.//a) or root.find(.//b)" with Element truthiness. -/
def Elem.findDescOr (e : Elem) (a b : String) : Option Elem :=
  match e.findDesc a with
  | some c => if c.truthy then some c else e.findDesc b
  | none => e.findDesc b

/-- Python "elem.findall(a) or elem.findall(b)" (list truthiness). -/
def Elem.findallOr (e : Elem) (a b : String) : List Elem :=
  let l := e.findall a
  if l.isEmpty then e.findall b else l

/-- elem.get(name, default): attribute lookup with a default. -/
def Elem.attr (e : Elem) (name dflt : String) : String :=
  (e.attrs.lookup name).getD dflt

/-! ## Numeric and timestamp parsing -/

/-- Value of a digit run. -/
def digitsToNat (cs : List Char) : ℕ :=
  cs.foldl (fun n c => 10 * n + (c.toNat - 48)) 0

/-- Python float() on the decimal grammar the weather feeds use:
sign [digits][.digits] [(e|E) sign digits], at least one mantissa digit.
Special float() forms (inf, nan, underscore separators) are not modelled;
the result is the exact rational value of the decimal literal. -/
def parseFloat (s : String) : Option ℚ :=
  let cs := s.data
  let signNum : ℚ := if cs.head? = some '-' then -1 else 1
  let cs := if cs.head? = some '-' ∨ cs.head? = some '+' then cs.tail else cs
  let mant := cs.takeWhile (fun c => !(c == 'e' || c == 'E'))
  let rest := cs.drop mant.length
  let ip := mant.takeWhile Char.isDigit
  let afterIp := mant.drop ip.length
  let fracOk : Option (List Char) :=
    match afterIp with
    | [] => some []
    | '.' :: fr => if fr.all Char.isDigit then some fr else none
    | _ => none
  match fracOk with
  | none => none
  | some fr =>
    if ip.isEmpty && fr.isEmpty then none
    else
      let mantVal : ℚ := (digitsToNat ip : ℚ) + (digitsToNat fr : ℚ) / (10 : ℚ) ^ fr.length
      match rest with
      | [] => some (signNum * mantVal)
      | _ :: etail =>
        let esign : ℤ := if etail.head? = some '-' then -1 else 1
        let ed := if etail.head? = some '-' ∨ etail.head? = some '+' then etail.tail else etail
        if ed.isEmpty || !(ed.all Char.isDigit) then none
        else some (signNum * mantVal * (10 : ℚ) ^ (esign * (digitsToNat ed : ℤ)))

/-- A calendar date. -/
structure Date where
  year : ℕ
  month : ℕ
  day : ℕ
deriving DecidableEq

/-- A wall-clock timestamp (the feeds are UTC; no zone arithmetic occurs). -/
structure DateTime where
  date : Date
  hour : ℕ
  minute : ℕ
  second : ℕ
deriving DecidableEq

/-- Length of a month as Python's datetime validates it. -/
def daysInMonth (y m : ℕ) : ℕ :=
  if m = 2 then (if y % 4 = 0 ∧ (y % 100 ≠ 0 ∨ y % 400 = 0) then 29 else 28)
  else if m = 4 ∨ m = 6 ∨ m = 9 ∨ m = 11 then 30 else 31

/-- datetime.strptime(s, "%Y-%m-%d %H:%M:%S"): a four-digit year and one- or
two-digit month/day/hour/minute/second runs separated by the literal
separators, nothing left over, with the range checks strptime and the
datetime constructor perform (months 1-12, days within the month, hours
0-23, minutes and seconds 0-59, year at least 1). -/
def parseDateTime (s : String) : Option DateTime :=
  let cs := s.data
  let yr := cs.takeWhile Char.isDigit
  match cs.drop yr.length with
  | '-' :: r2 =>
    let mo := r2.takeWhile Char.isDigit
    match r2.drop mo.length with
    | '-' :: r4 =>
      let dy := r4.takeWhile Char.isDigit
      match r4.drop dy.length with
      | ' ' :: r6 =>
        let hr := r6.takeWhile Char.isDigit
        match r6.drop hr.length with
        | ':' :: r8 =>
          let mi := r8.takeWhile Char.isDigit
          match r8.drop mi.length with
          | ':' :: r10 =>
            let se := r10.takeWhile Char.isDigit
            if r10.drop se.length ≠ [] then none
            else
              let y := digitsToNat yr
              let m := digitsToNat mo
              let d := digitsToNat dy
              let h := digitsToNat hr
              let mn := digitsToNat mi
              let sc := digitsToNat se
              if yr.length = 4 ∧ 1 ≤ y ∧
                  1 ≤ mo.length ∧ mo.length ≤ 2 ∧ 1 ≤ m ∧ m ≤ 12 ∧
                  1 ≤ dy.length ∧ dy.length ≤ 2 ∧ 1 ≤ d ∧ d ≤ daysInMonth y m ∧
                  1 ≤ hr.length ∧ hr.length ≤ 2 ∧ h ≤ 23 ∧
                  1 ≤ mi.length ∧ mi.length ≤ 2 ∧ mn ≤ 59 ∧
                  1 ≤ se.length ∧ se.length ≤ 2 ∧ sc ≤ 59 then
                some ⟨⟨y, m, d⟩, h, mn, sc⟩
              else none
          | _ => none
        | _ => none
      | _ => none
    | _ => none
  | _ => none

/-! ## Rounding -/

/-- Round to the nearest integer, ties to even, as Python's round does. -/
def roundHalfEven (x : ℚ) : ℤ :=
  let f := ⌊x⌋
  let r := x - f
  if r < 1/2 then f else if 1/2 < r then f + 1 else if f % 2 = 0 then f else f + 1

/-- Python round(x, 1). -/
def round1 (x : ℚ) : ℚ := (roundHalfEven (10 * x) : ℚ) / 10

/-! ## Constants from const.py -/

/-- WIND_DIRECTION_MAP: compass label to bearing in degrees. -/
def WIND_DIRECTION_MAP : List (String × ℚ) :=
  [("N", 0), ("NNA", 22.5), ("NA", 45), ("ANA", 67.5),
   ("A", 90), ("ASA", 112.5), ("SA", 135), ("SSA", 157.5),
   ("S", 180), ("SSV", 202.5), ("SV", 225), ("VSV", 247.5),
   ("V", 270), ("VNV", 292.5), ("NV", 315), ("NNV", 337.5),
   ("NNE", 22.5), ("NE", 45), ("ENE", 67.5), ("E", 90),
   ("ESE", 112.5), ("SE", 135), ("SSE", 157.5), ("SSW", 202.5),
   ("SW", 225), ("WSW", 247.5), ("W", 270), ("WNW", 292.5), ("NW", 315)]

/-- CONDITION_MAP as the ordered substring table the source iterates
(dict iteration follows insertion order). -/
def CONDITION_MAP : List (String × String) :=
  [("clear sky", "sunny"),
   ("partly cloudy", "partlycloudy"),
   ("cloudy", "cloudy"),
   ("overcast", "cloudy"),
   ("light rain", "rainy"),
   ("rain", "rainy"),
   ("rain showers", "rainy"),
   ("drizzle", "rainy"),
   ("light drizzle", "rainy"),
   ("snow", "snowy"),
   ("light snow", "snowy"),
   ("snow showers", "snowy"),
   ("sleet", "snowy-rainy"),
   ("light sleet", "snowy-rainy"),
   ("fog", "fog"),
   ("mist", "fog"),
   ("thunder", "lightning"),
   ("thunderstorm", "lightning-rainy")]

/-- SEVERITY_MAP: CAP severity text (lowercased) to display tier. -/
def SEVERITY_MAP : List (String × String) :=
  [("extreme", "red"), ("severe", "orange"), ("moderate", "yellow"),
   ("minor", "yellow"), ("unknown", "unknown")]

/-- SEVERITY_ORDER: display tier to rank. -/
def SEVERITY_ORDER : List (String × Int) :=
  [("red", 3), ("orange", 2), ("yellow", 1), ("unknown", 0)]

/-! ## Alerts -/

/-- One parsed CAP alert (the dict _parse_cap_xml builds).  For areaDesc the
outer Option models whether the key was written at all (the source writes it,
possibly as None, only when an area sub-block exists); for identifier the key
is written only with a non-empty text, so plain Option suffices; the
remaining text fields are always-written keys whose value may be None. -/
structure Alert where
  event : Option String
  severity : Option String
  severity_color : String
  onset : Option String
  expires : Option String
  headline : Option String
  description : Option String
  urgency : Option String
  certainty : Option String
  link : String
  areaDesc : Option (Option String)
  identifier : Option String
deriving DecidableEq

/-- Rank of a severity tier: SEVERITY_ORDER.get(sev, 0). -/
def severityRank (sev : String) : Int := (SEVERITY_ORDER.lookup sev).getD 0

/-- const.highest_severity: fold keeping the first strictly-greater rank,
starting from ("none", -1).  alert.get("severity_color", "unknown") is the
severity_color field, which the parser always writes. -/
def highest_severity (alerts : List Alert) : String :=
  (alerts.foldl
    (fun best a =>
      let sev := a.severity_color
      let v := severityRank sev
      if v > best.2 then (sev, v) else best)
    (("none", (-1 : Int)))).1

/-! ## Derived metric: wind chill -/

/-- Coordinator._wind_chill.  The transcendental float operation
math.pow(wind_kmh, 0.16) is modelled by the abstract parameter pow016, the
same parameter in which the specification's formula is stated; round1 models
round(x, 1). -/
def wind_chill (pow016 : ℚ → ℚ) : Option ℚ → Option ℚ → Option ℚ
  | some t, some w =>
    let wk := w * 3.6
    if 10 < t ∨ wk < 4.8 then some t
    else some (round1 (13.12 + 0.6215 * t - 11.37 * pow016 wk + 0.3965 * t * pow016 wk))
  | _, _ => none

/-! ## XML field helpers from the coordinator -/

/-- Coordinator._text: stripped text of the direct child; None when the child
is missing or its text is None or empty.  Note whitespace-only text is truthy
in Python, so it yields some "" after stripping. -/
def childText (e : Elem) (tag : String) : Option String :=
  match e.find tag with
  | none => none
  | some c =>
    match c.text with
    | none => none
    | some t => if t == "" then none else some (stripStr t)

/-- Coordinator._float: float(child.text.strip()) with None on a missing
child, falsy text, or unparsable text. -/
def childFloat (e : Elem) (tag : String) : Option ℚ :=
  match e.find tag with
  | none => none
  | some c =>
    match c.text with
    | none => none
    | some t => if t == "" then none else parseFloat (stripStr t)

/-- Coordinator._map_condition: first substring match in the ordered table,
default "cloudy" for absent, empty or unmatched text. -/
def map_condition : Option String → String
  | none => "cloudy"
  | some t =>
    if t == "" then "cloudy"
    else
      match CONDITION_MAP.find? (fun kv => subStr kv.1 (lowerStr t)) with
      | some kv => kv.2
      | none => "cloudy"

/-- Coordinator._wind_bearing: bearing from the D child's text via
WIND_DIRECTION_MAP on the uppercased label. -/
def _wind_bearing (e : Elem) : Option ℚ :=
  match childText e "D" with
  | some d => if d == "" then none else WIND_DIRECTION_MAP.lookup (upperStr d)
  | none => none

/-! ## Hourly series -/

/-- One hourly forecast entry (the dict _parse_hourly builds).  datetime
models the entry's "datetime" isoformat string (always produced from a
successfully parsed ftime, tagged UTC).  temperature, wind_speed,
wind_bearing and apparent_temperature are always-written keys whose value may
be None; wind_gust, precipitation, cloud_coverage and humidity are written
only when the feed supplied a value, so none models an absent key. -/
structure HourlyEntry where
  datetime : DateTime
  temperature : Option ℚ
  condition : String
  wind_speed : Option ℚ
  wind_bearing : Option ℚ
  apparent_temperature : Option ℚ
  wind_gust : Option ℚ
  precipitation : Option ℚ
  cloud_coverage : Option ℚ
  humidity : Option ℚ
deriving DecidableEq

/-- The entry _parse_hourly builds for one forecast element with a parsed
timestamp. -/
def mkHourlyEntry (pow016 : ℚ → ℚ) (dt : DateTime) (fc : Elem) : HourlyEntry :=
  let temp := childFloat fc "T"
  let wind := childFloat fc "F"
  { datetime := dt
    temperature := temp
    condition := map_condition (childText fc "W")
    wind_speed := wind
    wind_bearing := _wind_bearing fc
    apparent_temperature := wind_chill pow016 temp wind
    wind_gust := childFloat fc "FG"
    precipitation := childFloat fc "R"
    cloud_coverage := childFloat fc "N"
    humidity := childFloat fc "RH" }

/-- Coordinator._parse_hourly: entries whose ftime is falsy or fails
strptime are skipped with continue. -/
def parse_hourly (pow016 : ℚ → ℚ) : List Elem → List HourlyEntry
  | [] => []
  | fc :: rest =>
    let ft := (childText fc "ftime").getD ""
    if ft == "" then parse_hourly pow016 rest
    else
      match parseDateTime ft with
      | none => parse_hourly pow016 rest
      | some dt => mkHourlyEntry pow016 dt fc :: parse_hourly pow016 rest

/-! ## Daily aggregation -/

/-- One daily summary (the dict _aggregate_daily builds).  date models the
synthetic "dateT00:00:00+00:00" timestamp.  temperature, templow and
condition are always-written keys whose value may be None; wind_speed,
wind_gust and precipitation are written only when at least one sample
existed, so none models an absent key. -/
structure DailySummary where
  date : Date
  temperature : Option ℚ
  templow : Option ℚ
  condition : Option String
  wind_speed : Option ℚ
  wind_gust : Option ℚ
  precipitation : Option ℚ
deriving DecidableEq

/-- Orders the runtime's set() iteration can actually produce: an enumeration
of the distinct elements of the list. -/
def IsSetEnum (enum : List String → List String) : Prop :=
  ∀ l : List String, (enum l).Nodup ∧ ∀ x, x ∈ enum l ↔ x ∈ l

/-- Python max(iterable, key=k): the first element attaining the maximal key
(max keeps the current best and replaces it only on a strictly greater key). -/
def pymax (key : String → ℕ) : List String → Option String
  | [] => none
  | x :: xs => some (xs.foldl (fun b a => if key a > key b then a else b) x)

/-- Python max(l) over a non-empty list of numbers. -/
def listMax (l : List ℚ) : ℚ :=
  match l with
  | [] => 0
  | x :: xs => xs.foldl max x

/-- Python min(l) over a non-empty list of numbers. -/
def listMin (l : List ℚ) : ℚ :=
  match l with
  | [] => 0
  | x :: xs => xs.foldl min x

/-- Dict insertion order of the group keys: first occurrence of each date. -/
def dictKeys (l : List Date) : List Date :=
  l.foldl (fun ks d => if d ∈ ks then ks else ks ++ [d]) []

/-- Ascending order on dates.  The source sorts the ISO "YYYY-MM-DD" key
strings lexicographically; for dates a datetime can produce (four-digit
zero-padded years) that is exactly this field-lexicographic order. -/
def dateLeB (a b : Date) : Bool :=
  a.year < b.year ||
    (a.year == b.year &&
      (a.month < b.month || (a.month == b.month && a.day ≤ b.day)))

/-- Insert into a sorted list of dates. -/
def insortDate (d : Date) : List Date → List Date
  | [] => [d]
  | x :: xs => if dateLeB d x then d :: x :: xs else x :: insortDate d xs

/-- Python sorted() on date keys. -/
def sortDates : List Date → List Date
  | [] => []
  | x :: xs => insortDate x (sortDates xs)

/-- The in-order group of entries for one date. -/
def groupOf (hourly : List HourlyEntry) (d : Date) : List HourlyEntry :=
  hourly.filter (fun e => e.datetime.date = d)

/-- Temperatures present in a group. -/
def tempsOf (l : List HourlyEntry) : List ℚ := l.filterMap (·.temperature)

/-- Wind speeds present in a group. -/
def windsOf (l : List HourlyEntry) : List ℚ := l.filterMap (·.wind_speed)

/-- Wind gusts present in a group. -/
def gustsOf (l : List HourlyEntry) : List ℚ := l.filterMap (·.wind_gust)

/-- Precipitation values present in a group. -/
def precipsOf (l : List HourlyEntry) : List ℚ := l.filterMap (·.precipitation)

/-- Truthy condition codes of a group, in order. -/
def condsOf (l : List HourlyEntry) : List String :=
  (l.map (·.condition)).filter (fun c => !(c == ""))

/-- The summary record _aggregate_daily builds for one date's group. -/
def mkDailySummary (enum : List String → List String) (d : Date)
    (entries : List HourlyEntry) : DailySummary :=
  let temps := tempsOf entries
  let winds := windsOf entries
  let gusts := gustsOf entries
  let precips := precipsOf entries
  let conditions := condsOf entries
  { date := d
    temperature := if temps.isEmpty then none else some (listMax temps)
    templow := if temps.isEmpty then none else some (listMin temps)
    condition :=
      if conditions.isEmpty then none
      else pymax (fun c => conditions.count c) (enum conditions)
    wind_speed :=
      if winds.isEmpty then none else some (round1 (winds.sum / winds.length))
    wind_gust := if gusts.isEmpty then none else some (listMax gusts)
    precipitation :=
      if precips.isEmpty then none else some (round1 precips.sum) }

/-- Coordinator._aggregate_daily.  Grouping into the defaultdict preserves
input order, so the group for a date is the in-order filter; sorted(by_date)
visits the distinct dates ascending.  fromisoformat re-parses the isoformat
string parse_hourly produced and cannot fail, so the try/except skip is
unreachable and not modelled.  enum models the set(conditions) iteration
order (see IsSetEnum). -/
def aggregate_daily (enum : List String → List String)
    (hourly : List HourlyEntry) : List DailySummary :=
  if hourly.isEmpty then []
  else
    (sortDates (dictKeys (hourly.map (fun e => e.datetime.date)))).map
      (fun d => mkDailySummary enum d (groupOf hourly d))

/-! ## The snapshot dict and the forecast parser -/

/-- The data dict _parse_forecast builds and the overlay mutates.
observation_time is written only by the overlay and never with a falsy value,
so none models an absent key; the other Option fields are always-written keys
whose value may be None. -/
structure VedurData where
  station_name : String
  station_id : String
  temperature : Option ℚ
  wind_speed : Option ℚ
  wind_gust : Option ℚ
  wind_direction : Option String
  wind_bearing : Option ℚ
  condition_text : Option String
  condition : String
  forecast_time : Option String
  precipitation : Option ℚ
  cloud_cover : Option ℚ
  dew_point : Option ℚ
  humidity : Option ℚ
  pressure : Option ℚ
  visibility : Option ℚ
  feels_like : Option ℚ
  alerts : List Alert
  forecast_hourly : List HourlyEntry
  forecast_daily : List DailySummary
  observation_time : Option String
deriving DecidableEq

/-- Outcome of ElementTree.fromstring on a fetched body: a parse error or the
root element. -/
abbrev Xml := Except Unit Elem

/-- Coordinator._parse_forecast composed with _parse_xml_root on the body's
parse outcome.  The error strings are the UpdateFailed messages. -/
def parse_forecast (pow016 : ℚ → ℚ) (enum : List String → List String)
    (station_name station_id : String) (xml : Xml) : Except String VedurData :=
  match xml with
  | .error _ => .error "Failed to parse XML"
  | .ok root =>
    match root.findDesc "station" with
    | none => .error "No station data found in response"
    | some station =>
      match station.findallDesc "forecast" with
      | [] => .error "No forecast data found"
      | current :: rest =>
        let forecasts := current :: rest
        let temp := childFloat current "T"
        let wind := childFloat current "F"
        let hourly := parse_hourly pow016 forecasts
        .ok
          { station_name := station_name
            station_id := station_id
            temperature := temp
            wind_speed := wind
            wind_gust := childFloat current "FG"
            wind_direction := childText current "D"
            wind_bearing := _wind_bearing current
            condition_text := childText current "W"
            condition := map_condition (childText current "W")
            forecast_time := childText current "ftime"
            precipitation := childFloat current "R"
            cloud_cover := childFloat current "N"
            dew_point := childFloat current "TD"
            humidity := childFloat current "RH"
            pressure := childFloat current "P"
            visibility := childFloat current "V"
            feels_like := wind_chill pow016 temp wind
            alerts := []
            forecast_hourly := hourly
            forecast_daily := aggregate_daily enum hourly
            observation_time := none }

/-! ## Observation overlay -/

/-- One key of the obs_map loop: a parsed value overwrites, None leaves the
forecast value. -/
def overwrite (n o : Option ℚ) : Option ℚ :=
  match n with
  | some v => some v
  | none => o

/-- Coordinator._apply_observations on the observation body's parse outcome.
A parse failure or a missing station record returns the data unchanged; the
numeric obs_map loop runs first, then wind direction, then condition, then
the single feels_like recomputation from the possibly-overlaid temperature
and wind speed, then the observation timestamp. -/
def apply_observations (pow016 : ℚ → ℚ) (data : VedurData) (xml : Xml) :
    VedurData :=
  match xml with
  | .error _ => data
  | .ok root =>
    match root.findDesc "station" with
    | none => data
    | some station =>
      let d1 :=
        { data with
          temperature := overwrite (childFloat station "T") data.temperature
          wind_speed := overwrite (childFloat station "F") data.wind_speed
          wind_gust := overwrite (childFloat station "FG") data.wind_gust
          humidity := overwrite (childFloat station "RH") data.humidity
          pressure := overwrite (childFloat station "P") data.pressure
          dew_point := overwrite (childFloat station "TD") data.dew_point
          precipitation := overwrite (childFloat station "R") data.precipitation
          cloud_cover := overwrite (childFloat station "N") data.cloud_cover
          visibility := overwrite (childFloat station "V") data.visibility }
      let d2 :=
        match childText station "D" with
        | some dir =>
          if dir == "" then d1
          else
            let d1' := { d1 with wind_direction := some dir }
            match WIND_DIRECTION_MAP.lookup (upperStr dir) with
            | some b => { d1' with wind_bearing := some b }
            | none => d1'
        | none => d1
      let d3 :=
        match childText station "W" with
        | some w =>
          if w == "" then d2
          else { d2 with condition_text := some w, condition := map_condition (some w) }
        | none => d2
      let d4 := { d3 with feels_like := wind_chill pow016 d3.temperature d3.wind_speed }
      match childText station "time" with
      | some t => if t == "" then d4 else { d4 with observation_time := some t }
      | none => d4

/-! ## Phase 1: fetch weather -/

/-- Outcome of _fetch_xml: an exception (transport error, the phase timeout,
or the UpdateFailed raised on a non-200 status) or the body's parse
outcome. -/
abbrev FetchRes := Except Unit Xml

/-- Coordinator._fetch_weather: the forecast fetch is required; the overlay
runs only when the observation fetch returned a body (a body that later
fails to parse is handled inside apply_observations). -/
def fetch_weather (pow016 : ℚ → ℚ) (enum : List String → List String)
    (station_name station_id : String)
    (forecastRes obsRes : FetchRes) : Except String VedurData :=
  match forecastRes with
  | .error _ => .error "Failed to fetch forecast"
  | .ok fxml =>
    match parse_forecast pow016 enum station_name station_id fxml with
    | .error e => .error e
    | .ok d =>
      match obsRes with
      | .ok oxml => .ok (apply_observations pow016 d oxml)
      | .error _ => .ok d

/-! ## Phase 2: alerts -/

/-- Namespace marker of Atom feeds as ElementTree expands it. -/
def atomNS : String := "{http://www.w3.org/2005/Atom}"

/-- Namespace marker of CAP 1.2 documents as ElementTree expands it. -/
def capNS : String := "{urn:oasis:names:tc:emergency:cap:1.2}"

/-- The loop of _extract_link over the typed link elements: an href with an
xml-ish type or /xml/ suffix returns immediately; otherwise the first
non-empty href is remembered as fallback. -/
def extractFromElems : List Elem → Option String → Option String
  | [], fb => fb
  | elem :: rest, fb =>
    let href := elem.attr "href" ""
    if href ≠ "" ∧ (subStr "xml" (elem.attr "type" "") ∨ endsStr href "/xml/") then
      some href
    else
      extractFromElems rest
        (if href ≠ "" ∧ fb = none then some href else fb)

/-- Coordinator._extract_link: typed link attributes first, then the RSS
link text node. -/
def _extract_link (entry : Elem) : Option String :=
  let link_elems := entry.findallOr (atomNS ++ "link") "link"
  match extractFromElems link_elems none with
  | some h => some h
  | none =>
    match entry.find "link" with
    | some le =>
      match le.text with
      | none => none
      | some t => if t == "" then none else some (stripStr t)
    | none => none

/-- Coordinator._parse_alert_feed on the feed body's parse outcome: entries
by the namespaced tag, else bare entry, else item; only truthy links are
collected. -/
def _parse_alert_feed (body : Xml) : List String :=
  match body with
  | .error _ => []
  | .ok root =>
    let entries :=
      let a := root.findallDesc (atomNS ++ "entry")
      if a.isEmpty then
        let b := root.findallDesc "entry"
        if b.isEmpty then root.findallDesc "item" else b
      else a
    entries.filterMap (fun e =>
      match _extract_link e with
      | some l => if l == "" then none else some l
      | none => none)

/-- Coordinator._select_info_block: scan in document order; the language is
read through the "find(ns-language) or find(language)" idiom, stripped and
lowercased, empty when absent; the first block whose language starts with
the preferred code wins, else the first block is the fallback. -/
def _select_info_block (alert_language : String) (blocks : List Elem) :
    Option Elem :=
  go blocks none
where
  go : List Elem → Option Elem → Option Elem
    | [], fb => fb
    | info :: rest, fb =>
      let langElem := info.findOr (capNS ++ "language") "language"
      let lang :=
        match langElem with
        | some le =>
          match le.text with
          | some t => if t == "" then "" else lowerStr (stripStr t)
          | none => ""
        | none => ""
      if startsStr lang alert_language then some info
      else go rest (match fb with | none => some info | some f => some f)

/-- The txt helper of _parse_cap_xml: text through the
"find(ns-tag) or find(tag)" idiom. -/
def capTxt (parent : Elem) (tag : String) : Option String :=
  match parent.findOr (capNS ++ tag) tag with
  | none => none
  | some e =>
    match e.text with
    | none => none
    | some t => if t == "" then none else some (stripStr t)

/-- Coordinator._parse_cap_xml on one alert body's parse outcome. -/
def _parse_cap_xml (alert_language : String) (body : Xml) (source_url : String) :
    Option Alert :=
  match body with
  | .error _ => none
  | .ok root =>
    let alertElem :=
      if root.tag == capNS ++ "alert" || root.tag == "alert" then some root
      else root.findDescOr (capNS ++ "alert") "alert"
    match alertElem with
    | none => none
    | some ae =>
      let infos := ae.findallOr (capNS ++ "info") "info"
      if infos.isEmpty then none
      else
        match _select_info_block alert_language infos with
        | none => none
        | some info =>
          let rawSeverity := lowerStr ((capTxt info "severity").getD "")
          let base : Alert :=
            { event := capTxt info "event"
              severity := capTxt info "severity"
              severity_color := (SEVERITY_MAP.lookup rawSeverity).getD "unknown"
              onset := capTxt info "onset"
              expires := capTxt info "expires"
              headline := capTxt info "headline"
              description := capTxt info "description"
              urgency := capTxt info "urgency"
              certainty := capTxt info "certainty"
              link := source_url
              areaDesc := none
              identifier := none }
          let a1 :=
            match info.findOr (capNS ++ "area") "area" with
            | some area => { base with areaDesc := some (capTxt area "areaDesc") }
            | none => base
          some
            (match ae.findOr (capNS ++ "identifier") "identifier" with
             | some ide =>
               match ide.text with
               | some t =>
                 if t == "" then a1 else { a1 with identifier := some (stripStr t) }
               | none => a1
             | none => a1)

/-- HTTP outcome for one URL: an exception (transport error or the deadline)
or a status code and the body's parse outcome. -/
abbrev HttpRes := Except Unit (ℕ × Xml)

/-- Coordinator._fetch_cap_alert: non-200 yields None; otherwise the parse
result; an exception propagates into the gather slot. -/
def _fetch_cap_alert (alert_language : String) (url : String) (res : HttpRes) :
    Except Unit (Option Alert) :=
  match res with
  | .error e => .error e
  | .ok (status, body) =>
    if status ≠ 200 then .ok none
    else .ok (_parse_cap_xml alert_language body url)

/-- Coordinator._fetch_alerts.  env maps each detail URL to its HTTP outcome;
gather(..., return_exceptions=True) yields the slots in task order (the order
of links[:10]) regardless of completion order, and the assembly loop scans
them in that order, dropping exceptions and None results.  The index GET
raising is the error case, which propagates to the caller. -/
def _fetch_alerts (alert_language : String) (indexRes : HttpRes)
    (env : String → HttpRes) : Except Unit (List Alert) :=
  match indexRes with
  | .error e => .error e
  | .ok (status, content) =>
    if status ≠ 200 then .ok []
    else
      let links := _parse_alert_feed content
      if links.isEmpty then .ok []
      else
        let results := (links.take 10).map
          (fun l => _fetch_cap_alert alert_language l (env l))
        .ok (results.foldl
          (fun alerts r =>
            match r with
            | .error _ => alerts
            | .ok none => alerts
            | .ok (some a) => alerts ++ [a])
          [])

/-! ## The refresh cycle -/

/-- Coordinator._async_update_data.  previous holds the prior cycle's data
dict alerts (None on the first run); weatherRes is the phase 1 outcome with
its timeout and exceptions folded into the error case; alertsRes is the
phase 2 outcome of _fetch_alerts, whose own 20s timeout also lands in the
error case. -/
def _async_update_data (previous : Option (List Alert))
    (weatherRes : Except String VedurData)
    (alertsRes : Except Unit (List Alert)) : Except String VedurData :=
  match weatherRes with
  | .error e => .error e
  | .ok d =>
    match alertsRes with
    | .ok alerts => .ok { d with alerts := alerts }
    | .error _ => .ok { d with alerts := previous.getD [] }

/-! ## Claim C2: apparent temperature -/

/-- C2: apparentTemperature(tempC, windMps) is absent exactly when either
input is absent; when tempC > 10 or windMps*3.6 < 4.8 it returns tempC
unchanged; otherwise it returns
13.12 + 0.6215*T + (-11.37 + 0.3965*T)*W^0.16 with T = tempC and
W = windMps*3.6, rounded to one decimal place (the power W^0.16 being the
abstract pow016 in which both the source and the formula are stated). -/
theorem C2_wind_chill (pow016 : ℚ → ℚ) :
    (∀ w, wind_chill pow016 none w = none) ∧
    (∀ t, wind_chill pow016 t none = none) ∧
    (∀ t w : ℚ, (wind_chill pow016 (some t) (some w)).isSome) ∧
    (∀ t w : ℚ, 10 < t ∨ w * 3.6 < 4.8 →
      wind_chill pow016 (some t) (some w) = some t) ∧
    (∀ t w : ℚ, ¬(10 < t ∨ w * 3.6 < 4.8) →
      wind_chill pow016 (some t) (some w) =
        some (round1 (13.12 + 0.6215 * t + (-11.37 + 0.3965 * t) * pow016 (w * 3.6)))) := by
  refine ⟨?_, ?_, ?_, ?_, ?_⟩
  · intro w; cases w <;> rfl
  · intro t; cases t <;> rfl
  · intro t w
    simp only [wind_chill]
    split <;> simp
  · intro t w h
    simp only [wind_chill, if_pos h]
  · intro t w h
    simp only [wind_chill, if_neg h]
    congr 2
    ring

/-- Witness for C2 at concrete inputs: 15 °C with light wind is returned
unchanged; at 5 °C and 10 km/h the formula value is produced and, for the
sample power value 1.44, evaluates to 2.7. -/
theorem C2_wind_chill_witness :
    wind_chill (fun _ => 1.44) (some 15) (some 2) = some 15 ∧
    wind_chill (fun _ => 1.44) (some 5) (some (25/9)) =
      some (round1 (13.12 + 0.6215 * 5 + (-11.37 + 0.3965 * 5) * 1.44)) ∧
    round1 (13.12 + 0.6215 * 5 + (-11.37 + 0.3965 * 5) * 1.44) = 2.7 := by
  refine ⟨?_, ?_, ?_⟩
  · exact (C2_wind_chill (fun _ => 1.44)).2.2.2.1 15 2 (by norm_num)
  · have h := (C2_wind_chill (fun _ => 1.44)).2.2.2.2 5 (25/9) (by norm_num)
    simpa using h
  · norm_num [round1, roundHalfEven]

/-! ## Claim C10: hourly entries have well-formed timestamps -/

/-- C10: every hourly entry arises from a forecast element whose ftime text
parsed in the form YYYY-MM-DD HH:MM:SS; a forecast element with missing or
unparsable ftime is silently omitted (no error), so the series can be
shorter than the forecast list. -/
theorem C10_hourly_timestamps (pow016 : ℚ → ℚ) (forecasts : List Elem) :
    (parse_hourly pow016 forecasts).length ≤ forecasts.length ∧
    (∀ e ∈ parse_hourly pow016 forecasts, ∃ fc ∈ forecasts, ∃ s dt,
        childText fc "ftime" = some s ∧ s ≠ "" ∧ parseDateTime s = some dt ∧
        e = mkHourlyEntry pow016 dt fc ∧ e.datetime = dt) ∧
    (∀ l₁ l₂ fc, ((childText fc "ftime").getD "" = "" ∨
        parseDateTime ((childText fc "ftime").getD "") = none) →
      parse_hourly pow016 (l₁ ++ fc :: l₂) = parse_hourly pow016 (l₁ ++ l₂)) := by
  refine ⟨?_, ?_, ?_⟩
  · induction forecasts with
    | nil => simp [parse_hourly]
    | cons fc rest ih =>
      simp only [parse_hourly]
      split
      · exact Nat.le_succ_of_le ih
      · split
        · exact Nat.le_succ_of_le ih
        · simpa using ih
  · induction forecasts with
    | nil => simp [parse_hourly]
    | cons fc rest ih =>
      intro e he
      simp only [parse_hourly] at he
      split at he
      · obtain ⟨fc', h1, h2⟩ := ih e he
        exact ⟨fc', List.mem_cons_of_mem _ h1, h2⟩
      · rename_i hne
        split at he
        · obtain ⟨fc', h1, h2⟩ := ih e he
          exact ⟨fc', List.mem_cons_of_mem _ h1, h2⟩
        · rename_i dt hdt
          rcases List.mem_cons.mp he with h | h
          · refine ⟨fc, List.mem_cons_self _ _,
              (childText fc "ftime").getD "", dt, ?_, ?_, hdt, h, ?_⟩
            · rcases hft : childText fc "ftime" with _ | s
              · simp [hft] at hne
              · simp [hft]
            · simpa using hne
            · simp [h, mkHourlyEntry]
          · obtain ⟨fc', h1, h2⟩ := ih e h
            exact ⟨fc', List.mem_cons_of_mem _ h1, h2⟩
  · intro l₁ l₂ fc hbad
    induction l₁ with
    | nil =>
      simp only [List.nil_append, parse_hourly]
      rcases hbad with hbad | hbad
      · rw [if_pos (by simpa using hbad)]
      · by_cases hft : ((childText fc "ftime").getD "" == "") = true
        · rw [if_pos hft]
        · rw [if_neg hft, hbad]
    | cons g gs ih =>
      simp only [List.cons_append, parse_hourly]
      split
      · exact ih
      · split
        · exact ih
        · simp only [List.append_eq]
          rw [ih]

/-! ## Shared concrete samples for witnesses and counterexamples -/

/-- A degenerate power function for instantiating the abstract pow016. -/
def c4pow : ℚ → ℚ := fun _ => 0

/-- A set enumeration the runtime can produce: the first-occurrence
deduplication order. -/
def dedupEnum : List String → List String := fun l => l.dedup

/-- A concrete alert. -/
def sampleAlert : Alert :=
  { event := some "Storm", severity := some "Severe", severity_color := "orange"
    onset := none, expires := none, headline := none, description := none
    urgency := none, certainty := none, link := "u", areaDesc := none
    identifier := none }

/-- The snapshot parsed from the minimal forecast document below. -/
def sampleData : VedurData :=
  { station_name := "S", station_id := "1", temperature := none
    wind_speed := none, wind_gust := none, wind_direction := none
    wind_bearing := none, condition_text := none, condition := "cloudy"
    forecast_time := none, precipitation := none, cloud_cover := none
    dew_point := none, humidity := none, pressure := none, visibility := none
    feels_like := none, alerts := [], forecast_hourly := []
    forecast_daily := [], observation_time := none }

/-- A forecast element with a valid timestamp. -/
def c10good : Elem :=
  ⟨"forecast", [], none, [⟨"ftime", [], some "2024-01-02 03:00:00", []⟩]⟩

/-- A forecast element whose timestamp does not parse (February 30th). -/
def c10bad : Elem :=
  ⟨"forecast", [], none, [⟨"ftime", [], some "2024-02-30 00:00:00", []⟩]⟩

/-- Witness for C10: the entry with the unparsable February 30th timestamp is
silently omitted from the hourly series. -/
theorem C10_witness :
    parseDateTime "2024-02-30 00:00:00" = none ∧
    parse_hourly c4pow [c10good, c10bad] = parse_hourly c4pow [c10good] := by
  refine ⟨by decide, ?_⟩
  have h := (C10_hourly_timestamps c4pow [c10good, c10bad]).2.2 [c10good] [] c10bad
    (Or.inr (by decide))
  simpa using h

/-! ## Claim C4: forecast is required, observations are optional -/

/-- C4: the refresh fails whenever the forecast fetch fails, the forecast XML
is malformed, the station record is absent, or zero forecast entries are
present; an observation fetch or parse failure with a valid forecast still
yields a successful refresh with forecast-only fields (the overlay is
skipped, no error surfaces). -/
theorem C4_forecast_required (pow016 : ℚ → ℚ) (enum : List String → List String)
    (sn si : String) (prev : Option (List Alert))
    (alertsRes : Except Unit (List Alert)) :
    (∀ obsRes, ∃ err, _async_update_data prev
        (fetch_weather pow016 enum sn si (.error ()) obsRes) alertsRes = .error err) ∧
    (∀ obsRes, ∃ err, _async_update_data prev
        (fetch_weather pow016 enum sn si (.ok (.error ())) obsRes) alertsRes = .error err) ∧
    (∀ root obsRes, root.findDesc "station" = none → ∃ err, _async_update_data prev
        (fetch_weather pow016 enum sn si (.ok (.ok root)) obsRes) alertsRes = .error err) ∧
    (∀ root station obsRes, root.findDesc "station" = some station →
      station.findallDesc "forecast" = [] → ∃ err, _async_update_data prev
        (fetch_weather pow016 enum sn si (.ok (.ok root)) obsRes) alertsRes = .error err) ∧
    (∀ fxml d, parse_forecast pow016 enum sn si fxml = .ok d →
      fetch_weather pow016 enum sn si (.ok fxml) (.error ()) = .ok d ∧
      fetch_weather pow016 enum sn si (.ok fxml) (.ok (.error ())) = .ok d ∧
      ∃ d', _async_update_data prev (.ok d) alertsRes = .ok d' ∧
        d'.forecast_hourly = d.forecast_hourly ∧
        d'.forecast_daily = d.forecast_daily ∧
        d'.temperature = d.temperature) := by
  refine ⟨?_, ?_, ?_, ?_, ?_⟩
  · intro obsRes; exact ⟨_, rfl⟩
  · intro obsRes; exact ⟨_, rfl⟩
  · intro root obsRes h
    refine ⟨"No station data found in response", ?_⟩
    simp [fetch_weather, parse_forecast, h, _async_update_data]
  · intro root station obsRes h1 h2
    refine ⟨"No forecast data found", ?_⟩
    simp [fetch_weather, parse_forecast, h1, h2, _async_update_data]
  · intro fxml d hp
    refine ⟨?_, ?_, ?_⟩
    · simp [fetch_weather, hp]
    · simp [fetch_weather, hp, apply_observations]
    · cases alertsRes with
      | ok al => exact ⟨_, rfl, rfl, rfl, rfl⟩
      | error e => exact ⟨_, rfl, rfl, rfl, rfl⟩

/-- A forecast entry with no fields at all. -/
def c4fc : Elem := ⟨"forecast", [], none, []⟩

/-- A minimal valid station record. -/
def c4station : Elem := ⟨"station", [], none, [c4fc]⟩

/-- A minimal valid forecast document. -/
def c4root : Elem := ⟨"root", [], none, [c4station]⟩

/-- A well-formed document with no station record. -/
def c4rootEmpty : Elem := ⟨"root", [], none, []⟩

/-- A station record with zero forecast entries. -/
def c4stationEmpty : Elem := ⟨"station", [], none, []⟩

/-- A document whose station has zero forecast entries. -/
def c4rootNoFc : Elem := ⟨"root", [], none, [c4stationEmpty]⟩

/-- Witness for C4 at concrete documents: fetch failure, malformed XML,
missing station and zero forecasts each fail the refresh; a valid forecast
with a failed observation parse succeeds forecast-only. -/
theorem C4_witness :
    (∃ err, _async_update_data none
      (fetch_weather c4pow dedupEnum "S" "1" (.error ()) (.ok (.ok c4root))) (.ok [])
        = .error err) ∧
    (∃ err, _async_update_data none
      (fetch_weather c4pow dedupEnum "S" "1" (.ok (.error ())) (.ok (.ok c4root))) (.ok [])
        = .error err) ∧
    (c4rootEmpty.findDesc "station" = none ∧ ∃ err, _async_update_data none
      (fetch_weather c4pow dedupEnum "S" "1" (.ok (.ok c4rootEmpty)) (.ok (.ok c4root))) (.ok [])
        = .error err) ∧
    (c4rootNoFc.findDesc "station" = some c4stationEmpty ∧
      c4stationEmpty.findallDesc "forecast" = [] ∧ ∃ err, _async_update_data none
      (fetch_weather c4pow dedupEnum "S" "1" (.ok (.ok c4rootNoFc)) (.ok (.ok c4root))) (.ok [])
        = .error err) ∧
    (parse_forecast c4pow dedupEnum "S" "1" (.ok c4root) = .ok sampleData ∧
      fetch_weather c4pow dedupEnum "S" "1" (.ok (.ok c4root)) (.ok (.error ())) = .ok sampleData) := by
  have hstA : c4rootEmpty.findDesc "station" = none := by
    simp [c4rootEmpty, Elem.findDesc, findDescList]
  have hstB : c4rootNoFc.findDesc "station" = some c4stationEmpty := by
    simp [c4rootNoFc, c4stationEmpty, Elem.findDesc, findDescList]
  have hfcB : c4stationEmpty.findallDesc "forecast" = [] := by
    simp [c4stationEmpty, Elem.findallDesc, findallDescList]
  have hp : parse_forecast c4pow dedupEnum "S" "1" (.ok c4root) = .ok sampleData := by
    simp [parse_forecast, c4root, c4station, c4fc, Elem.findDesc, findDescList,
      Elem.findallDesc, findallDescList, childFloat, childText, Elem.find,
      map_condition, _wind_bearing, wind_chill, parse_hourly, aggregate_daily,
      sampleData]
  refine ⟨?_, ?_, ⟨hstA, ?_⟩, ⟨hstB, hfcB, ?_⟩, ⟨hp, ?_⟩⟩
  · exact (C4_forecast_required c4pow dedupEnum "S" "1" none (.ok [])).1 _
  · exact (C4_forecast_required c4pow dedupEnum "S" "1" none (.ok [])).2.1 _
  · exact (C4_forecast_required c4pow dedupEnum "S" "1" none (.ok [])).2.2.1 _ _ hstA
  · exact (C4_forecast_required c4pow dedupEnum "S" "1" none (.ok [])).2.2.2.1 _ _ _ hstB hfcB
  · exact ((C4_forecast_required c4pow dedupEnum "S" "1" none (.ok [])).2.2.2.2 _ _ hp).2.1

/-! ## Claim C9: observation overlay frame -/

/-- C9: the observation overlay only changes current-conditions fields; the
hourly and daily sequences (and the identity and alert fields) are left
unchanged; and when a station record is found, the final apparent
temperature is exactly the wind chill of the final (possibly overlaid)
temperature and wind speed, i.e. it is recomputed once after all overlay
fields have been applied. -/
theorem C9_overlay_frame (pow016 : ℚ → ℚ) (data : VedurData) (obs : Xml) :
    (apply_observations pow016 data obs).forecast_hourly = data.forecast_hourly ∧
    (apply_observations pow016 data obs).forecast_daily = data.forecast_daily ∧
    (apply_observations pow016 data obs).alerts = data.alerts ∧
    (apply_observations pow016 data obs).station_name = data.station_name ∧
    (apply_observations pow016 data obs).station_id = data.station_id ∧
    (apply_observations pow016 data obs).forecast_time = data.forecast_time ∧
    (∀ root station, obs = .ok root → root.findDesc "station" = some station →
      (apply_observations pow016 data obs).feels_like =
        wind_chill pow016 (apply_observations pow016 data obs).temperature
          (apply_observations pow016 data obs).wind_speed) := by
  cases obs with
  | error e =>
    exact ⟨rfl, rfl, rfl, rfl, rfl, rfl, fun root station hr hs => by cases hr⟩
  | ok root =>
    cases hst : root.findDesc "station" with
    | none =>
      have hid : apply_observations pow016 data (.ok root) = data := by
        simp only [apply_observations, hst]
      rw [hid]
      exact ⟨rfl, rfl, rfl, rfl, rfl, rfl, fun r s hr hs => by
        cases hr; rw [hst] at hs; cases hs⟩
    | some station =>
      simp only [apply_observations, hst]
      repeat' split
      all_goals exact ⟨rfl, rfl, rfl, rfl, rfl, rfl, fun r s hr hs => rfl⟩

/-- An observation station record overriding temperature and wind speed. -/
def c9station : Elem :=
  ⟨"station", [], none, [⟨"T", [], some "3.5", []⟩, ⟨"F", [], some "8", []⟩]⟩

/-- An observation document around c9station. -/
def c9root : Elem := ⟨"obs", [], none, [c9station]⟩

/-- Witness for C9 at a concrete observation document: the hourly and daily
series survive the overlay unchanged and the final apparent temperature is
the wind chill of the final temperature and wind speed. -/
theorem C9_witness :
    c9root.findDesc "station" = some c9station ∧
    (apply_observations c4pow sampleData (.ok c9root)).forecast_hourly =
      sampleData.forecast_hourly ∧
    (apply_observations c4pow sampleData (.ok c9root)).forecast_daily =
      sampleData.forecast_daily ∧
    (apply_observations c4pow sampleData (.ok c9root)).feels_like =
      wind_chill c4pow (apply_observations c4pow sampleData (.ok c9root)).temperature
        (apply_observations c4pow sampleData (.ok c9root)).wind_speed := by
  have hst : c9root.findDesc "station" = some c9station := by
    simp [c9root, c9station, Elem.findDesc, findDescList]
  have h := C9_overlay_frame c4pow sampleData (.ok c9root)
  exact ⟨hst, h.1, h.2.1, h.2.2.2.2.2.2 c9root c9station rfl hst⟩

/-! ## Claim C1: alert-phase degradation -/

/-- C1 counterexample: with a previous alert list present, a non-2xx index
status, an unparsable index feed, and a feed with zero links each produce an
EMPTY alert list (previousAlerts is discarded), though the refresh still
succeeds — the claim's "equals previousAlerts unchanged" fails on these
inputs. -/
theorem C1_counterexample :
    _async_update_data (some [sampleAlert]) (.ok sampleData)
        (_fetch_alerts "is" (.ok (404, .ok c4rootEmpty)) (fun _ => .error ())) =
      .ok { sampleData with alerts := [] } ∧
    _async_update_data (some [sampleAlert]) (.ok sampleData)
        (_fetch_alerts "is" (.ok (200, .error ())) (fun _ => .error ())) =
      .ok { sampleData with alerts := [] } ∧
    _async_update_data (some [sampleAlert]) (.ok sampleData)
        (_fetch_alerts "is" (.ok (200, .ok c4rootEmpty)) (fun _ => .error ())) =
      .ok { sampleData with alerts := [] } ∧
    ([] : List Alert) ≠ [sampleAlert] := by
  refine ⟨?_, ?_, ?_, by simp⟩
  · simp [_async_update_data, _fetch_alerts]
  · simp [_async_update_data, _fetch_alerts, _parse_alert_feed]
  · simp [_async_update_data, _fetch_alerts, _parse_alert_feed, c4rootEmpty,
      Elem.findallDesc, findallDescList]

/-- C1 amended: when the alert index fetch raises (transport error or
timeout) the snapshot's alert list equals the previous cycle's list (empty
when there is no previous data) and the refresh succeeds; a non-2xx index
status, an unparsable index feed, or zero parsed links instead yield an
empty alert list, discarding previousAlerts, with the refresh still
succeeding in every case. -/
theorem C1_alerts_degrade (previous : Option (List Alert)) (d : VedurData)
    (lang : String) (idx : HttpRes) (env : String → HttpRes) :
    (idx = .error () →
      _async_update_data previous (.ok d) (_fetch_alerts lang idx env) =
        .ok { d with alerts := previous.getD [] }) ∧
    (∀ status body, idx = .ok (status, body) → status ≠ 200 →
      _async_update_data previous (.ok d) (_fetch_alerts lang idx env) =
        .ok { d with alerts := [] }) ∧
    (∀ body, idx = .ok (200, body) → _parse_alert_feed body = [] →
      _async_update_data previous (.ok d) (_fetch_alerts lang idx env) =
        .ok { d with alerts := [] }) ∧
    (∃ d', _async_update_data previous (.ok d) (_fetch_alerts lang idx env) = .ok d') := by
  refine ⟨?_, ?_, ?_, ?_⟩
  · intro h; subst h; rfl
  · intro status body h hs; subst h
    simp [_async_update_data, _fetch_alerts, hs]
  · intro body h hl; subst h
    simp [_async_update_data, _fetch_alerts, hl]
  · rcases hfa : _fetch_alerts lang idx env with e | al
    · exact ⟨{ d with alerts := previous.getD [] }, by simp [_async_update_data, hfa]⟩
    · exact ⟨{ d with alerts := al }, by simp [_async_update_data, hfa]⟩

/-- Witness for C1 (amended): an index fetch exception carries the previous
alert list into the new snapshot and the refresh succeeds. -/
theorem C1_witness :
    _async_update_data (some [sampleAlert]) (.ok sampleData)
        (_fetch_alerts "is" (.error ()) (fun _ => .error ())) =
      .ok { sampleData with alerts := [sampleAlert] } := by
  have h := (C1_alerts_degrade (some [sampleAlert]) sampleData "is" (.error ())
    (fun _ => .error ())).1 rfl
  simpa using h

/-! ## Claim C7: severity mapping and highest severity -/

/-- The rank of any severity tier is non-negative. -/
theorem severityRank_nonneg (s : String) : 0 ≤ severityRank s := by
  simp only [severityRank, SEVERITY_ORDER, List.lookup]
  repeat' split
  all_goals decide

/-- The best-so-far fold of highest_severity: the result is the start or the
pair of some alert; its rank is monotone in the start and dominates every
alert's rank. -/
theorem foldl_best (f : String × Int → Alert → String × Int)
    (hf : ∀ b a, f b a = if b.2 < severityRank a.severity_color
        then (a.severity_color, severityRank a.severity_color) else b)
    (l : List Alert) : ∀ b : String × Int,
    (l.foldl f b = b ∨
      ∃ a ∈ l, l.foldl f b = (a.severity_color, severityRank a.severity_color)) ∧
    b.2 ≤ (l.foldl f b).2 ∧
    ∀ a ∈ l, severityRank a.severity_color ≤ (l.foldl f b).2 := by
  induction l with
  | nil => intro b; exact ⟨Or.inl rfl, le_refl _, by simp⟩
  | cons x xs ih =>
    intro b
    simp only [List.foldl_cons]
    rw [hf]
    by_cases hx : b.2 < severityRank x.severity_color
    · rw [if_pos hx]
      obtain ⟨hdisj, hmono, hbound⟩ := ih (x.severity_color, severityRank x.severity_color)
      refine ⟨?_, ?_, ?_⟩
      · rcases hdisj with heq | ⟨a, ha, heq⟩
        · exact Or.inr ⟨x, List.mem_cons_self _ _, heq⟩
        · exact Or.inr ⟨a, List.mem_cons_of_mem _ ha, heq⟩
      · exact le_trans (le_of_lt hx) hmono
      · intro a ha
        rcases List.mem_cons.mp ha with rfl | ha
        · exact hmono
        · exact hbound a ha
    · rw [if_neg hx]
      obtain ⟨hdisj, hmono, hbound⟩ := ih b
      refine ⟨?_, hmono, ?_⟩
      · rcases hdisj with heq | ⟨a, ha, heq⟩
        · exact Or.inl heq
        · exact Or.inr ⟨a, List.mem_cons_of_mem _ ha, heq⟩
      · intro a ha
        rcases List.mem_cons.mp ha with rfl | ha
        · exact le_trans (le_of_not_lt hx) hmono
        · exact hbound a ha

/-- highest_severity over a non-empty list returns the severity colour of
some alert whose rank dominates every alert's rank. -/
theorem highest_severity_spec (alerts : List Alert) (hne : alerts ≠ []) :
    ∃ a ∈ alerts, highest_severity alerts = a.severity_color ∧
      ∀ b ∈ alerts, severityRank b.severity_color ≤ severityRank a.severity_color := by
  unfold highest_severity
  obtain ⟨hdisj, hmono, hbound⟩ :=
    foldl_best (fun best a =>
      let sev := a.severity_color
      let v := severityRank sev
      if v > best.2 then (sev, v) else best) (fun b a => rfl) alerts ("none", (-1 : Int))
  rcases alerts with _ | ⟨a0, rest⟩
  · exact absurd rfl hne
  · rcases hdisj with heq | ⟨a, ha, heq⟩
    · exfalso
      have hb := hbound a0 (List.mem_cons_self _ _)
      rw [heq] at hb
      have := severityRank_nonneg a0.severity_color
      omega
    · refine ⟨a, ha, ?_, ?_⟩
      · rw [heq]
      · intro b hb
        have := hbound b hb
        rw [heq] at this
        exact this

/-- C7: every parsed alert's severity tier is the lowercased severity text
mapped through extreme→red, severe→orange, moderate→yellow, minor→yellow,
anything else (or absent)→unknown; and highest_severity returns a tier of
maximal rank among the alerts, or "none" on the empty list. -/
theorem C7_severity_mapping :
    (∀ lang body url a, _parse_cap_xml lang body url = some a →
      a.severity_color =
        (SEVERITY_MAP.lookup (lowerStr (a.severity.getD ""))).getD "unknown") ∧
    (SEVERITY_MAP.lookup "extreme" = some "red" ∧
     SEVERITY_MAP.lookup "severe" = some "orange" ∧
     SEVERITY_MAP.lookup "moderate" = some "yellow" ∧
     SEVERITY_MAP.lookup "minor" = some "yellow") ∧
    (∀ s, s ≠ "extreme" → s ≠ "severe" → s ≠ "moderate" → s ≠ "minor" →
      (SEVERITY_MAP.lookup s).getD "unknown" = "unknown") ∧
    highest_severity [] = "none" ∧
    (∀ alerts : List Alert, alerts ≠ [] →
      ∃ a ∈ alerts, highest_severity alerts = a.severity_color ∧
        ∀ b ∈ alerts, severityRank b.severity_color ≤ severityRank a.severity_color) := by
  refine ⟨?_, by decide, ?_, rfl, highest_severity_spec⟩
  · intro lang body url a h
    simp only [_parse_cap_xml] at h
    repeat' split at h
    all_goals
      first
      | exact Option.noConfusion h
      | (obtain rfl := Option.some.inj h; rfl)
  · intro s h1 h2 h3 h4
    by_cases h5 : s = "unknown"
    · subst h5; decide
    · have b1 : (s == "extreme") = false := by simp [h1]
      have b2 : (s == "severe") = false := by simp [h2]
      have b3 : (s == "moderate") = false := by simp [h3]
      have b4 : (s == "minor") = false := by simp [h4]
      have b5 : (s == "unknown") = false := by simp [h5]
      simp [SEVERITY_MAP, List.lookup, b1, b2, b3, b4, b5]

/-- A bare-tag CAP info block carrying a severity. -/
def capInfoBare : Elem := ⟨"info", [], none, [⟨"severity", [], some "Severe", []⟩]⟩

/-- A bare-tag CAP document around capInfoBare. -/
def capDocBare : Elem := ⟨"alert", [], none, [capInfoBare]⟩

/-- The alert parsed from capDocBare. -/
def c7alert : Alert :=
  { event := none, severity := some "Severe", severity_color := "orange"
    onset := none, expires := none, headline := none, description := none
    urgency := none, certainty := none, link := "u7", areaDesc := none
    identifier := none }

/-- A yellow alert. -/
def c7yellow : Alert := { sampleAlert with severity_color := "yellow", link := "uy" }

/-- A red alert. -/
def c7red : Alert := { sampleAlert with severity_color := "red", link := "ur" }

/-- Witness for C7: the concrete document with severity text "Severe" parses
to tier orange, matching the lowercase-and-map rule, and over a yellow and a
red alert the maximal-rank tier is the red one. -/
theorem C7_witness :
    _parse_cap_xml "is" (.ok capDocBare) "u7" = some c7alert ∧
    c7alert.severity_color =
      (SEVERITY_MAP.lookup (lowerStr (c7alert.severity.getD ""))).getD "unknown" ∧
    highest_severity [c7yellow, c7red] = "red" ∧
    ∃ a ∈ [c7yellow, c7red], highest_severity [c7yellow, c7red] = a.severity_color ∧
      ∀ b ∈ [c7yellow, c7red],
        severityRank b.severity_color ≤ severityRank a.severity_color := by
  have hp : _parse_cap_xml "is" (.ok capDocBare) "u7" = some c7alert := by
    simp [_parse_cap_xml, capDocBare, capInfoBare, c7alert, capNS,
      Elem.findallOr, Elem.findall, Elem.findOr, Elem.find, Elem.findDescOr,
      Elem.findDesc, findDescList, Elem.truthy, _select_info_block,
      _select_info_block.go, capTxt, lowerStr, stripStr, startsStr,
      SEVERITY_MAP, List.lookup]
  refine ⟨hp, ?_, by decide, ?_⟩
  · exact (C7_severity_mapping).1 "is" (.ok capDocBare) "u7" c7alert hp
  · exact (C7_severity_mapping).2.2.2.2 [c7yellow, c7red] (by simp)

/-! ## Claim C6: CAP language selection (code bug) -/

/-- A namespaced language element saying "en". -/
def capLangEn : Elem := ⟨capNS ++ "language", [], some "en", []⟩

/-- A namespaced language element saying "is". -/
def capLangIs : Elem := ⟨capNS ++ "language", [], some "is", []⟩

/-- A namespaced English info block. -/
def infoEnN : Elem :=
  ⟨capNS ++ "info", [], none, [capLangEn, ⟨capNS ++ "event", [], some "Gale", []⟩]⟩

/-- A namespaced Icelandic info block. -/
def infoIsN : Elem :=
  ⟨capNS ++ "info", [], none, [capLangIs, ⟨capNS ++ "event", [], some "Stormur", []⟩]⟩

/-- A bare-tag English info block. -/
def infoEnB : Elem := ⟨"info", [], none, [⟨"language", [], some "en", []⟩]⟩

/-- A bare-tag Icelandic info block. -/
def infoIsB : Elem := ⟨"info", [], none, [⟨"language", [], some "is", []⟩]⟩

/-- C6 (code bug): in a namespaced CAP document the language element is a
childless Element, hence falsy, so the source's
"info.find(ns-language) or info.find(language)" discards it and reads the
language as empty; with blocks [en, is] and preferred language "is" the en
block is selected instead of the is block whose language does start with
"is".  With bare tags (where the first find returns None and the second is
returned regardless of truthiness) the intended selection works. -/
theorem C6_namespaced_language_ignored :
    _select_info_block "is" [infoEnN, infoIsN] = some infoEnN ∧
    (infoEnN = infoIsN → False) ∧
    startsStr (lowerStr (stripStr "is")) "is" = true ∧
    _select_info_block "is" [infoEnB, infoIsB] = some infoIsB := by
  refine ⟨?_, ?_, by decide, ?_⟩
  · simp [_select_info_block, _select_info_block.go, infoEnN, infoIsN,
      capLangEn, capLangIs, capNS, Elem.findOr, Elem.find, Elem.truthy,
      lowerStr, stripStr, startsStr]
  · intro h
    have : infoEnN.children = infoIsN.children := by rw [h]
    simp [infoEnN, infoIsN, capLangEn, capLangIs, capNS] at this
  · simp [_select_info_block, _select_info_block.go, infoEnB, infoIsB,
      capNS, Elem.findOr, Elem.find, Elem.truthy, lowerStr, stripStr, startsStr]

/-! ## Claim C8: the alert detail fan-out -/

/-- The contribution of one link slot to the assembled alert list: nothing on
an exception or a None parse, the alert otherwise. -/
def slotAlert (alert_language : String) (url : String) (res : HttpRes) :
    Option Alert :=
  match _fetch_cap_alert alert_language url res with
  | .error _ => none
  | .ok o => o

/-- The assembly loop of _fetch_alerts equals the in-order filterMap. -/
theorem assemble_eq_filterMap (rs : List (Except Unit (Option Alert))) :
    ∀ acc : List Alert,
    rs.foldl
      (fun alerts r =>
        match r with
        | .error _ => alerts
        | .ok none => alerts
        | .ok (some a) => alerts ++ [a])
      acc =
    acc ++ rs.filterMap (fun r =>
      match r with
      | .ok (some a) => some a
      | _ => none) := by
  induction rs with
  | nil => intro acc; simp
  | cons r rest ih =>
    intro acc
    rcases r with e | o
    · simpa using ih acc
    · rcases o with _ | a
      · simpa using ih acc
      · simp only [List.foldl_cons, List.filterMap_cons]
        rw [ih (acc ++ [a])]
        simp

/-- C8: on a 200 index response, the assembled alert list is exactly the
in-order filterMap of the first 10 feed links (so it has at most 10
elements, each individual failure drops only its own slot, and the list
preserves feed-link order); outcomes of URLs beyond the first 10 links are
never consulted. -/
theorem C8_alert_order (lang : String) (body : Xml) (env env' : String → HttpRes) :
    _fetch_alerts lang (.ok (200, body)) env =
      .ok (((_parse_alert_feed body).take 10).filterMap
        (fun l => slotAlert lang l (env l))) ∧
    (∀ al, _fetch_alerts lang (.ok (200, body)) env = .ok al → al.length ≤ 10) ∧
    ((∀ l ∈ (_parse_alert_feed body).take 10, env l = env' l) →
      _fetch_alerts lang (.ok (200, body)) env =
        _fetch_alerts lang (.ok (200, body)) env') := by
  have main : ∀ e : String → HttpRes, _fetch_alerts lang (.ok (200, body)) e =
      .ok (((_parse_alert_feed body).take 10).filterMap
        (fun l => slotAlert lang l (e l))) := by
    intro e
    simp only [_fetch_alerts]
    rw [if_neg (by simp)]
    by_cases hl : (_parse_alert_feed body).isEmpty
    · rw [if_pos hl]
      rw [List.isEmpty_iff] at hl
      rw [hl]
      simp
    · rw [if_neg hl]
      rw [assemble_eq_filterMap _ [], List.nil_append, List.filterMap_map]
      congr 1
      apply List.filterMap_congr
      intro l hl
      simp only [Function.comp_apply, slotAlert]
      rcases _fetch_cap_alert lang l (e l) with u | o
      · rfl
      · rcases o with _ | a <;> rfl
  refine ⟨main env, ?_, ?_⟩
  · intro al hal
    rw [main env] at hal
    obtain rfl := Except.ok.inj hal
    calc (((_parse_alert_feed body).take 10).filterMap _).length
        ≤ ((_parse_alert_feed body).take 10).length := List.length_filterMap_le _ _
      _ ≤ 10 := List.length_take_le _ _
  · intro hagree
    rw [main env, main env']
    congr 1
    apply List.filterMap_congr
    intro l hl
    rw [hagree l hl]

/-- Eleven detail URLs. -/
def c8urls : List String :=
  ["u1", "u2", "u3", "u4", "u5", "u6", "u7", "u8", "u9", "u10", "u11"]

/-- An RSS-style feed carrying eleven item links. -/
def c8feed : Elem :=
  ⟨"feed", [], none,
    c8urls.map (fun u => ⟨"item", [], none, [⟨"link", [], some u, []⟩]⟩)⟩

/-- Detail outcomes: only u3 resolves, everything else raises. -/
def c8env : String → HttpRes :=
  fun u => if u = "u3" then .ok (200, .ok capDocBare) else .error ()

/-- Detail outcomes differing from c8env only at the eleventh link. -/
def c8env' : String → HttpRes :=
  fun u =>
    if u = "u11" then .ok (200, .error ())
    else if u = "u3" then .ok (200, .ok capDocBare) else .error ()

/-- Witness for C8: with eleven links only the first ten matter (changing the
eleventh outcome changes nothing), the cycle succeeds, and at most ten
alerts are assembled. -/
theorem C8_witness :
    (_parse_alert_feed (.ok c8feed)).take 10 =
      ["u1", "u2", "u3", "u4", "u5", "u6", "u7", "u8", "u9", "u10"] ∧
    c8env "u11" ≠ c8env' "u11" ∧
    _fetch_alerts "is" (.ok (200, .ok c8feed)) c8env =
      _fetch_alerts "is" (.ok (200, .ok c8feed)) c8env' ∧
    ∃ al, _fetch_alerts "is" (.ok (200, .ok c8feed)) c8env = .ok al ∧
      al.length ≤ 10 := by
  have hlinks : _parse_alert_feed (.ok c8feed) = c8urls := by
    simp [_parse_alert_feed, c8feed, c8urls, atomNS, Elem.findallDesc,
      findallDescList, _extract_link, Elem.findallOr, Elem.findall,
      extractFromElems, Elem.attr, Elem.find, stripStr]
  have htake : (_parse_alert_feed (.ok c8feed)).take 10 =
      ["u1", "u2", "u3", "u4", "u5", "u6", "u7", "u8", "u9", "u10"] := by
    rw [hlinks]; rfl
  have hagree : ∀ l ∈ (_parse_alert_feed (.ok c8feed)).take 10,
      c8env l = c8env' l := by
    intro l hl
    rw [htake] at hl
    simp only [List.mem_cons, List.not_mem_nil, or_false] at hl
    rcases hl with rfl | rfl | rfl | rfl | rfl | rfl | rfl | rfl | rfl | rfl <;>
      simp [c8env, c8env']
  refine ⟨htake, by simp [c8env, c8env'], ?_, ?_⟩
  · exact (C8_alert_order "is" (.ok c8feed) c8env c8env').2.2 hagree
  · refine ⟨_, (C8_alert_order "is" (.ok c8feed) c8env c8env).1, ?_⟩
    exact (C8_alert_order "is" (.ok c8feed) c8env c8env).2.1 _
      (C8_alert_order "is" (.ok c8feed) c8env c8env).1

/-! ## Order and aggregation lemmas for the daily claims -/

/-- The date order is total. -/
theorem dateLeB_total (a b : Date) : dateLeB a b = true ∨ dateLeB b a = true := by
  simp only [dateLeB, Bool.or_eq_true, Bool.and_eq_true, decide_eq_true_eq,
    beq_iff_eq]
  omega

/-- The date order is transitive. -/
theorem dateLeB_trans {a b c : Date} (h1 : dateLeB a b = true)
    (h2 : dateLeB b c = true) : dateLeB a c = true := by
  simp only [dateLeB, Bool.or_eq_true, Bool.and_eq_true, decide_eq_true_eq,
    beq_iff_eq] at *
  omega

/-- Membership through insertion. -/
theorem mem_insortDate {x d : Date} {l : List Date} :
    x ∈ insortDate d l ↔ x = d ∨ x ∈ l := by
  induction l with
  | nil => simp [insortDate]
  | cons a l ih =>
    simp only [insortDate]
    split
    · simp [List.mem_cons]
    · simp only [List.mem_cons, ih]
      tauto

/-- Insertion preserves sortedness. -/
theorem pairwise_insortDate {d : Date} {l : List Date}
    (h : l.Pairwise (fun a b => dateLeB a b = true)) :
    (insortDate d l).Pairwise (fun a b => dateLeB a b = true) := by
  induction l with
  | nil => simp [insortDate]
  | cons x xs ih =>
    obtain ⟨hx, hxs⟩ := List.pairwise_cons.mp h
    simp only [insortDate]
    split
    · rename_i hdx
      refine List.pairwise_cons.mpr ⟨?_, h⟩
      intro y hy
      rcases List.mem_cons.mp hy with rfl | hy
      · exact hdx
      · exact dateLeB_trans hdx (hx y hy)
    · rename_i hdx
      have hxd : dateLeB x d = true := by
        rcases dateLeB_total d x with hh | hh
        · exact absurd hh hdx
        · exact hh
      refine List.pairwise_cons.mpr ⟨?_, ih hxs⟩
      intro y hy
      rcases mem_insortDate.mp hy with rfl | hy
      · exact hxd
      · exact hx y hy

/-- Insertion of a fresh element preserves distinctness. -/
theorem nodup_insortDate {d : Date} {l : List Date} (hd : d ∉ l)
    (h : l.Nodup) : (insortDate d l).Nodup := by
  induction l with
  | nil => simp [insortDate]
  | cons x xs ih =>
    obtain ⟨hx, hxs⟩ := List.pairwise_cons.mp h
    simp only [insortDate]
    split
    · exact List.pairwise_cons.mpr ⟨by
        intro y hy
        rcases List.mem_cons.mp hy with rfl | hy
        · intro hdy; exact hd (by rw [hdy]; exact List.mem_cons_self _ _)
        · intro hdy; exact hd (by rw [hdy]; exact List.mem_cons_of_mem _ hy), h⟩
    · refine List.pairwise_cons.mpr ⟨?_, ih (fun hmem => hd (List.mem_cons_of_mem _ hmem)) hxs⟩
      intro y hy
      rcases mem_insortDate.mp hy with rfl | hy
      · intro hxy; exact hd (by rw [← hxy]; exact List.mem_cons_self _ _)
      · exact hx y hy

/-- Sorting preserves membership. -/
theorem mem_sortDates {x : Date} {l : List Date} : x ∈ sortDates l ↔ x ∈ l := by
  induction l with
  | nil => simp [sortDates]
  | cons a l ih => simp [sortDates, mem_insortDate, ih]

/-- The sorted keys are sorted. -/
theorem pairwise_sortDates (l : List Date) :
    (sortDates l).Pairwise (fun a b => dateLeB a b = true) := by
  induction l with
  | nil => simp [sortDates]
  | cons a l ih => exact pairwise_insortDate ih

/-- Sorting preserves distinctness. -/
theorem nodup_sortDates {l : List Date} (h : l.Nodup) : (sortDates l).Nodup := by
  induction l with
  | nil => simp [sortDates]
  | cons a l ih =>
    obtain ⟨ha, hl⟩ := List.pairwise_cons.mp h
    exact nodup_insortDate
      (fun hmem => ha a (mem_sortDates.mp hmem) rfl) (ih hl)

/-- Membership in the dict key list. -/
theorem mem_dictKeys_aux (l : List Date) : ∀ (acc : List Date) (x : Date),
    x ∈ l.foldl (fun ks d => if d ∈ ks then ks else ks ++ [d]) acc ↔
      x ∈ acc ∨ x ∈ l := by
  induction l with
  | nil => intro acc x; simp
  | cons d l ih =>
    intro acc x
    simp only [List.foldl_cons]
    by_cases hd : d ∈ acc
    · rw [if_pos hd, ih]
      constructor
      · rintro (h | h)
        · exact Or.inl h
        · exact Or.inr (List.mem_cons_of_mem _ h)
      · rintro (h | h)
        · exact Or.inl h
        · rcases List.mem_cons.mp h with rfl | h
          · exact Or.inl hd
          · exact Or.inr h
    · rw [if_neg hd, ih]
      simp only [List.mem_append, List.mem_singleton, List.mem_cons]
      tauto

/-- The dict key list is duplicate-free. -/
theorem nodup_dictKeys_aux (l : List Date) : ∀ acc : List Date, acc.Nodup →
    (l.foldl (fun ks d => if d ∈ ks then ks else ks ++ [d]) acc).Nodup := by
  induction l with
  | nil => intro acc h; simpa
  | cons d l ih =>
    intro acc h
    simp only [List.foldl_cons]
    by_cases hd : d ∈ acc
    · rw [if_pos hd]; exact ih acc h
    · rw [if_neg hd]
      refine ih _ ?_
      simpa [List.nodup_append, h] using hd

/-- The best-so-far fold of Python max with a key. -/
theorem pymax_foldl_spec (key : String → ℕ) (xs : List String) : ∀ x : String,
    (xs.foldl (fun b a => if key a > key b then a else b) x = x ∨
      xs.foldl (fun b a => if key a > key b then a else b) x ∈ xs) ∧
    key x ≤ key (xs.foldl (fun b a => if key a > key b then a else b) x) ∧
    ∀ y ∈ xs, key y ≤ key (xs.foldl (fun b a => if key a > key b then a else b) x) := by
  induction xs with
  | nil => intro x; exact ⟨Or.inl rfl, le_refl _, by simp⟩
  | cons a l ih =>
    intro x
    simp only [List.foldl_cons]
    by_cases h : key a > key x
    · rw [if_pos h]
      obtain ⟨hd, hm, hb⟩ := ih a
      refine ⟨?_, le_trans (le_of_lt h) hm, ?_⟩
      · rcases hd with heq | hmem
        · exact Or.inr (by rw [heq]; exact List.mem_cons_self _ _)
        · exact Or.inr (List.mem_cons_of_mem _ hmem)
      · intro y hy
        rcases List.mem_cons.mp hy with rfl | hy
        · exact hm
        · exact hb y hy
    · rw [if_neg h]
      obtain ⟨hd, hm, hb⟩ := ih x
      refine ⟨hd.imp id (List.mem_cons_of_mem _), hm, ?_⟩
      intro y hy
      rcases List.mem_cons.mp hy with rfl | hy
      · exact le_trans (Nat.le_of_not_lt h) hm
      · exact hb y hy

/-- Python max with a key returns a member of maximal key. -/
theorem pymax_spec {key : String → ℕ} {l : List String} {m : String}
    (h : pymax key l = some m) : m ∈ l ∧ ∀ y ∈ l, key y ≤ key m := by
  rcases l with _ | ⟨x, xs⟩
  · cases h
  · obtain ⟨hd, hm, hb⟩ := pymax_foldl_spec key xs x
    obtain rfl := Option.some.inj h
    refine ⟨?_, ?_⟩
    · rcases hd with heq | hmem
      · rw [heq]; exact List.mem_cons_self _ _
      · exact List.mem_cons_of_mem _ hmem
    · intro y hy
      rcases List.mem_cons.mp hy with rfl | hy
      · exact hm
      · exact hb y hy

/-- The fold of Python max over numbers. -/
theorem foldl_max_spec (l : List ℚ) : ∀ x : ℚ,
    (l.foldl max x = x ∨ l.foldl max x ∈ l) ∧
    x ≤ l.foldl max x ∧ ∀ y ∈ l, y ≤ l.foldl max x := by
  induction l with
  | nil => intro x; exact ⟨Or.inl rfl, le_refl _, by simp⟩
  | cons a l ih =>
    intro x
    simp only [List.foldl_cons]
    obtain ⟨hd, hm, hb⟩ := ih (max x a)
    refine ⟨?_, le_trans (le_max_left _ _) hm, ?_⟩
    · rcases hd with heq | hmem
      · rcases max_choice x a with hx | hx
        · exact Or.inl (by rw [heq, hx])
        · exact Or.inr (by rw [heq, hx]; exact List.mem_cons_self _ _)
      · exact Or.inr (List.mem_cons_of_mem _ hmem)
    · intro y hy
      rcases List.mem_cons.mp hy with rfl | hy
      · exact le_trans (le_max_right _ _) hm
      · exact hb y hy

/-- The fold of Python min over numbers. -/
theorem foldl_min_spec (l : List ℚ) : ∀ x : ℚ,
    (l.foldl min x = x ∨ l.foldl min x ∈ l) ∧
    l.foldl min x ≤ x ∧ ∀ y ∈ l, l.foldl min x ≤ y := by
  induction l with
  | nil => intro x; exact ⟨Or.inl rfl, le_refl _, by simp⟩
  | cons a l ih =>
    intro x
    simp only [List.foldl_cons]
    obtain ⟨hd, hm, hb⟩ := ih (min x a)
    refine ⟨?_, le_trans hm (min_le_left _ _), ?_⟩
    · rcases hd with heq | hmem
      · rcases min_choice x a with hx | hx
        · exact Or.inl (by rw [heq, hx])
        · exact Or.inr (by rw [heq, hx]; exact List.mem_cons_self _ _)
      · exact Or.inr (List.mem_cons_of_mem _ hmem)
    · intro y hy
      rcases List.mem_cons.mp hy with rfl | hy
      · exact le_trans hm (min_le_right _ _)
      · exact hb y hy

/-- Python max(l) on a non-empty list is a maximal member. -/
theorem listMax_spec {l : List ℚ} (h : l ≠ []) :
    listMax l ∈ l ∧ ∀ x ∈ l, x ≤ listMax l := by
  rcases l with _ | ⟨x, xs⟩
  · exact absurd rfl h
  · obtain ⟨hd, hm, hb⟩ := foldl_max_spec xs x
    simp only [listMax]
    refine ⟨?_, ?_⟩
    · rcases hd with heq | hmem
      · rw [heq]; exact List.mem_cons_self _ _
      · exact List.mem_cons_of_mem _ hmem
    · intro y hy
      rcases List.mem_cons.mp hy with rfl | hy
      · exact hm
      · exact hb y hy

/-- Python min(l) on a non-empty list is a minimal member. -/
theorem listMin_spec {l : List ℚ} (h : l ≠ []) :
    listMin l ∈ l ∧ ∀ x ∈ l, listMin l ≤ x := by
  rcases l with _ | ⟨x, xs⟩
  · exact absurd rfl h
  · obtain ⟨hd, hm, hb⟩ := foldl_min_spec xs x
    simp only [listMin]
    refine ⟨?_, ?_⟩
    · rcases hd with heq | hmem
      · rw [heq]; exact List.mem_cons_self _ _
      · exact List.mem_cons_of_mem _ hmem
    · intro y hy
      rcases List.mem_cons.mp hy with rfl | hy
      · exact hm
      · exact hb y hy

/-- Every summary is the record built for its own date, whose date occurs in
the input. -/
theorem mem_aggregate {enum : List String → List String}
    {hourly : List HourlyEntry} {s : DailySummary}
    (hs : s ∈ aggregate_daily enum hourly) :
    s.date ∈ hourly.map (fun e => e.datetime.date) ∧
    s = mkDailySummary enum s.date (groupOf hourly s.date) := by
  unfold aggregate_daily at hs
  split at hs
  · cases hs
  · obtain ⟨d, hd, rfl⟩ := List.mem_map.mp hs
    have hdate : (mkDailySummary enum d (groupOf hourly d)).date = d := rfl
    rw [hdate]
    refine ⟨?_, rfl⟩
    have h1 := mem_sortDates.mp hd
    simp only [dictKeys] at h1
    have h2 := (mem_dictKeys_aux (hourly.map (fun e => e.datetime.date)) [] d).mp h1
    simpa using h2

/-- The dates of the daily list are the sorted distinct input dates. -/
theorem aggregate_dates (enum : List String → List String)
    (hourly : List HourlyEntry) :
    (aggregate_daily enum hourly).map (fun s => s.date) =
      if hourly.isEmpty then ([] : List Date)
      else sortDates (dictKeys (hourly.map (fun e => e.datetime.date))) := by
  unfold aggregate_daily
  split
  · simp
  · rw [List.map_map]
    have hcomp : ((fun s : DailySummary => s.date) ∘
        (fun d => mkDailySummary enum d (groupOf hourly d))) = fun d => d := rfl
    rw [hcomp, List.map_id']

/-! ## Claim C5: daily aggregation -/

/-- C5: the daily list has exactly one summary per distinct calendar date of
the hourly sequence, in strictly ascending date order; max and min
temperature are the extrema of the date's present temperatures; mean wind
speed (rounded to one decimal) is present exactly when the date has a wind
sample, max wind gust exactly when it has a gust sample, and the rounded
precipitation sum exactly when it has a precipitation sample — a field with
zero samples is absent, not zero. -/
theorem C5_daily_aggregation (enum : List String → List String)
    (hourly : List HourlyEntry) :
    ((aggregate_daily enum hourly).map (fun s => s.date)).Pairwise
        (fun a b => dateLeB a b = true ∧ a ≠ b) ∧
    (∀ d : Date, d ∈ (aggregate_daily enum hourly).map (fun s => s.date) ↔
      d ∈ hourly.map (fun e => e.datetime.date)) ∧
    (∀ s ∈ aggregate_daily enum hourly,
      (tempsOf (groupOf hourly s.date) ≠ [] → ∃ m, s.temperature = some m ∧
        m ∈ tempsOf (groupOf hourly s.date) ∧
        ∀ x ∈ tempsOf (groupOf hourly s.date), x ≤ m) ∧
      (tempsOf (groupOf hourly s.date) ≠ [] → ∃ m, s.templow = some m ∧
        m ∈ tempsOf (groupOf hourly s.date) ∧
        ∀ x ∈ tempsOf (groupOf hourly s.date), m ≤ x) ∧
      (s.wind_speed = if (windsOf (groupOf hourly s.date)).isEmpty then none
        else some (round1 ((windsOf (groupOf hourly s.date)).sum /
          ((windsOf (groupOf hourly s.date)).length : ℚ)))) ∧
      (gustsOf (groupOf hourly s.date) ≠ [] → ∃ m, s.wind_gust = some m ∧
        m ∈ gustsOf (groupOf hourly s.date) ∧
        ∀ x ∈ gustsOf (groupOf hourly s.date), x ≤ m) ∧
      (s.wind_gust = none ↔ gustsOf (groupOf hourly s.date) = []) ∧
      (s.precipitation = if (precipsOf (groupOf hourly s.date)).isEmpty then none
        else some (round1 (precipsOf (groupOf hourly s.date)).sum))) := by
  refine ⟨?_, ?_, ?_⟩
  · rw [aggregate_dates]
    split
    · simp
    · have hp := pairwise_sortDates (dictKeys (hourly.map (fun e => e.datetime.date)))
      have hn : (sortDates (dictKeys (hourly.map (fun e => e.datetime.date)))).Nodup := by
        refine nodup_sortDates ?_
        have := nodup_dictKeys_aux (hourly.map (fun e => e.datetime.date)) [] List.nodup_nil
        simpa [dictKeys] using this
      exact (hp.and hn).imp (fun h => h)
  · intro d
    rw [aggregate_dates]
    split
    · rename_i hemp
      rw [List.isEmpty_iff] at hemp
      subst hemp
      simp
    · rw [mem_sortDates]
      simp only [dictKeys]
      rw [mem_dictKeys_aux (hourly.map (fun e => e.datetime.date)) [] d]
      simp
  · intro s hs
    obtain ⟨hmem, hseq⟩ := mem_aggregate hs
    have hT : s.temperature =
        if (tempsOf (groupOf hourly s.date)).isEmpty then none
        else some (listMax (tempsOf (groupOf hourly s.date))) := by
      conv_lhs => rw [hseq]
      rfl
    have hL : s.templow =
        if (tempsOf (groupOf hourly s.date)).isEmpty then none
        else some (listMin (tempsOf (groupOf hourly s.date))) := by
      conv_lhs => rw [hseq]
      rfl
    have hW : s.wind_speed =
        if (windsOf (groupOf hourly s.date)).isEmpty then none
        else some (round1 ((windsOf (groupOf hourly s.date)).sum /
          ((windsOf (groupOf hourly s.date)).length : ℚ))) := by
      conv_lhs => rw [hseq]
      rfl
    have hG : s.wind_gust =
        if (gustsOf (groupOf hourly s.date)).isEmpty then none
        else some (listMax (gustsOf (groupOf hourly s.date))) := by
      conv_lhs => rw [hseq]
      rfl
    have hP : s.precipitation =
        if (precipsOf (groupOf hourly s.date)).isEmpty then none
        else some (round1 (precipsOf (groupOf hourly s.date)).sum) := by
      conv_lhs => rw [hseq]
      rfl
    refine ⟨?_, ?_, hW, ?_, ?_, hP⟩
    · intro hne
      rw [hT, if_neg (by simpa [List.isEmpty_iff] using hne)]
      obtain ⟨h1, h2⟩ := listMax_spec hne
      exact ⟨_, rfl, h1, h2⟩
    · intro hne
      rw [hL, if_neg (by simpa [List.isEmpty_iff] using hne)]
      obtain ⟨h1, h2⟩ := listMin_spec hne
      exact ⟨_, rfl, h1, h2⟩
    · intro hne
      rw [hG, if_neg (by simpa [List.isEmpty_iff] using hne)]
      obtain ⟨h1, h2⟩ := listMax_spec hne
      exact ⟨_, rfl, h1, h2⟩
    · rw [hG]
      by_cases hge : (gustsOf (groupOf hourly s.date)).isEmpty
      · rw [if_pos hge]
        simp [List.isEmpty_iff.mp hge]
      · rw [if_neg hge]
        simp only [List.isEmpty_iff] at hge
        simp [hge]

/-! ## Claim C3: the modal condition and its tie-break -/

/-- The first-occurrence deduplication order is a set enumeration. -/
theorem IsSetEnum_dedup : IsSetEnum dedupEnum :=
  fun l => ⟨l.nodup_dedup, fun _ => List.mem_dedup⟩

/-- C3 amended: for every date group the summary's condition is a condition
code of maximal count among the group's (truthy) condition codes, for every
enumeration the runtime's set() can produce; which maximal code is chosen on
a tie follows that hash-dependent enumeration order. -/
theorem C3_modal_condition (enum : List String → List String) (h : IsSetEnum enum)
    (hourly : List HourlyEntry) (s : DailySummary)
    (hs : s ∈ aggregate_daily enum hourly) (c : String)
    (hc : s.condition = some c) :
    c ∈ condsOf (groupOf hourly s.date) ∧
    ∀ c' ∈ condsOf (groupOf hourly s.date),
      (condsOf (groupOf hourly s.date)).count c' ≤
        (condsOf (groupOf hourly s.date)).count c := by
  obtain ⟨hmem, hseq⟩ := mem_aggregate hs
  have hCnd : s.condition =
      if (condsOf (groupOf hourly s.date)).isEmpty then none
      else pymax (fun x => (condsOf (groupOf hourly s.date)).count x)
        (enum (condsOf (groupOf hourly s.date))) := by
    conv_lhs => rw [hseq]
    rfl
  rw [hCnd] at hc
  by_cases hemp : (condsOf (groupOf hourly s.date)).isEmpty
  · rw [if_pos hemp] at hc; cases hc
  · rw [if_neg hemp] at hc
    obtain ⟨hm, hb⟩ := pymax_spec hc
    obtain ⟨hnd, hiff⟩ := h (condsOf (groupOf hourly s.date))
    refine ⟨(hiff c).mp hm, ?_⟩
    intro c' hc'
    exact hb c' ((hiff c').mpr hc')

/-- The date of the tie example. -/
def dA : Date := ⟨2024, 1, 1⟩

/-- A second date. -/
def dB : Date := ⟨2024, 1, 2⟩

/-- A sunny entry on dA with no numeric samples. -/
def ce1 : HourlyEntry :=
  { datetime := ⟨dA, 0, 0, 0⟩, temperature := none, condition := "sunny"
    wind_speed := none, wind_bearing := none, apparent_temperature := none
    wind_gust := none, precipitation := none, cloud_coverage := none
    humidity := none }

/-- A rainy entry on dA with no numeric samples. -/
def ce2 : HourlyEntry := { ce1 with datetime := ⟨dA, 1, 0, 0⟩, condition := "rainy" }

/-- An input whose single date group has the conditions tied one-one. -/
def c3input : List HourlyEntry := [ce1, ce2]

/-- C3 counterexample: on the tied group ["sunny", "rainy"] both enumeration
orders of the two-element set are valid set enumerations, and they yield
different summary conditions — under the ["rainy", "sunny"] order the result
is "rainy", not the earliest-encountered code "sunny", so the tie-break is
neither first-encountered nor determined by the input sequence. -/
theorem C3_counterexample :
    (["rainy", "sunny"] : List String).Nodup ∧
    (∀ x : String, x ∈ ["rainy", "sunny"] ↔ x ∈ condsOf (groupOf c3input dA)) ∧
    condsOf (groupOf c3input dA) = ["sunny", "rainy"] ∧
    (condsOf (groupOf c3input dA)).count "rainy" =
      (condsOf (groupOf c3input dA)).count "sunny" ∧
    (aggregate_daily (fun _ => ["rainy", "sunny"]) c3input).map
        (fun s => s.condition) = [some "rainy"] ∧
    (aggregate_daily (fun _ => ["sunny", "rainy"]) c3input).map
        (fun s => s.condition) = [some "sunny"] ∧
    "rainy" ≠ "sunny" := by
  have hconds : condsOf (groupOf c3input dA) = ["sunny", "rainy"] := by
    simp [condsOf, groupOf, c3input, ce1, ce2, dA]
  refine ⟨by simp, ?_, hconds, ?_, ?_, ?_, by simp⟩
  · intro x; rw [hconds]; simp; tauto
  · rw [hconds]; simp [List.count_cons]
  · simp [aggregate_daily, c3input, ce1, ce2, dA, dictKeys, sortDates,
      insortDate, groupOf, mkDailySummary, condsOf, tempsOf, windsOf,
      gustsOf, precipsOf, pymax, List.count_cons]
  · simp [aggregate_daily, c3input, ce1, ce2, dA, dictKeys, sortDates,
      insortDate, groupOf, mkDailySummary, condsOf, tempsOf, windsOf,
      gustsOf, precipsOf, pymax, List.count_cons]

/-- The summary of the tie example under the dedup enumeration. -/
def c3summary : DailySummary :=
  { date := dA, temperature := none, templow := none
    condition := some "sunny", wind_speed := none, wind_gust := none
    precipitation := none }

/-- Witness for C3 (amended): under a concrete valid set enumeration the
chosen condition "sunny" is a member of the group's conditions with maximal
count. -/
theorem C3_witness :
    c3summary ∈ aggregate_daily dedupEnum c3input ∧
    c3summary.condition = some "sunny" ∧
    "sunny" ∈ condsOf (groupOf c3input c3summary.date) ∧
    (condsOf (groupOf c3input c3summary.date)).count "rainy" ≤
      (condsOf (groupOf c3input c3summary.date)).count "sunny" := by
  have hmem : c3summary ∈ aggregate_daily dedupEnum c3input := by
    simp [aggregate_daily, c3input, ce1, ce2, dA, dictKeys, sortDates,
      insortDate, groupOf, mkDailySummary, condsOf, tempsOf, windsOf,
      gustsOf, precipsOf, pymax, List.count_cons, dedupEnum, c3summary,
      List.dedup_cons_of_not_mem]
  have h := C3_modal_condition dedupEnum IsSetEnum_dedup c3input c3summary hmem
    "sunny" rfl
  refine ⟨hmem, rfl, h.1, ?_⟩
  by_cases hr : "rainy" ∈ condsOf (groupOf c3input c3summary.date)
  · exact h.2 "rainy" hr
  · rw [List.count_eq_zero_of_not_mem hr]
    exact Nat.zero_le _

/-- Hourly entry D1/T5/wind 4. -/
def c5e1 : HourlyEntry :=
  { datetime := ⟨dA, 0, 0, 0⟩, temperature := some 5, condition := "sunny"
    wind_speed := some 4, wind_bearing := none, apparent_temperature := none
    wind_gust := none, precipitation := none, cloud_coverage := none
    humidity := none }

/-- Hourly entry D1/T9/wind 6. -/
def c5e2 : HourlyEntry :=
  { c5e1 with datetime := ⟨dA, 1, 0, 0⟩, temperature := some 9, wind_speed := some 6 }

/-- Hourly entry D2/T-2 with no wind sample. -/
def c5e3 : HourlyEntry :=
  { c5e1 with datetime := ⟨dB, 0, 0, 0⟩, temperature := some (-2), wind_speed := none }

/-- The specification's daily aggregation example. -/
def c5input : List HourlyEntry := [c5e1, c5e2, c5e3]

/-- Witness for C5 at the specification's example: two summaries in date
order; D1 has max 9 / min 5 and mean wind 5.0; D2 has no wind sample and
its wind, gust and precipitation fields absent. -/
theorem C5_witness :
    (aggregate_daily dedupEnum c5input).map (fun s => s.date) = [dA, dB] ∧
    tempsOf (groupOf c5input dA) = [5, 9] ∧
    windsOf (groupOf c5input dA) = [4, 6] ∧
    (∀ s ∈ aggregate_daily dedupEnum c5input, s.date = dA →
      s.temperature = some 9 ∧ s.templow = some 5 ∧ s.wind_speed = some 5) ∧
    (∀ s ∈ aggregate_daily dedupEnum c5input, s.date = dB →
      s.wind_speed = none ∧ s.wind_gust = none ∧ s.precipitation = none) := by
  have hga : groupOf c5input dA = [c5e1, c5e2] := by
    simp [groupOf, c5input, c5e1, c5e2, c5e3, dA, dB]
  have hgb : groupOf c5input dB = [c5e3] := by
    simp [groupOf, c5input, c5e1, c5e2, c5e3, dA, dB]
  have hta : tempsOf (groupOf c5input dA) = [5, 9] := by
    rw [hga]; simp [tempsOf, c5e1, c5e2]
  have hwa : windsOf (groupOf c5input dA) = [4, 6] := by
    rw [hga]; simp [windsOf, c5e1, c5e2]
  have hwb : windsOf (groupOf c5input dB) = [] := by
    rw [hgb]; simp [windsOf, c5e3, c5e1]
  have hgub : gustsOf (groupOf c5input dB) = [] := by
    rw [hgb]; simp [gustsOf, c5e3, c5e1]
  have hpb : precipsOf (groupOf c5input dB) = [] := by
    rw [hgb]; simp [precipsOf, c5e3, c5e1]
  have hdates : (aggregate_daily dedupEnum c5input).map (fun s => s.date) = [dA, dB] := by
    rw [aggregate_dates]
    simp [c5input, c5e1, c5e2, c5e3, dA, dB, dictKeys, sortDates, insortDate,
      dateLeB]
  refine ⟨hdates, hta, hwa, ?_, ?_⟩
  · intro s hs hdA
    have h := (C5_daily_aggregation dedupEnum c5input).2.2 s hs
    rw [hdA] at h
    obtain ⟨h1, h2, h3, _, _, _⟩ := h
    obtain ⟨m, hm, hmem, hmax⟩ := h1 (by rw [hta]; simp)
    obtain ⟨m', hm', hmem', hmin⟩ := h2 (by rw [hta]; simp)
    refine ⟨?_, ?_, ?_⟩
    · rw [hm]
      rw [hta] at hmem hmax
      have h9 : m ≤ 9 := by
        simp only [List.mem_cons, List.not_mem_nil, or_false] at hmem
        rcases hmem with rfl | rfl
        · norm_num
        · exact le_refl _
      have h9' : (9 : ℚ) ≤ m := hmax 9 (by simp)
      rw [le_antisymm h9 h9']
    · rw [hm']
      rw [hta] at hmem' hmin
      have h5 : (5 : ℚ) ≤ m' := by
        simp only [List.mem_cons, List.not_mem_nil, or_false] at hmem'
        rcases hmem' with rfl | rfl
        · exact le_refl _
        · norm_num
      have h5' : m' ≤ 5 := hmin 5 (by simp)
      rw [le_antisymm h5' h5]
    · rw [h3, hwa]
      norm_num [round1, roundHalfEven]
  · intro s hs hdB
    have h := (C5_daily_aggregation dedupEnum c5input).2.2 s hs
    rw [hdB] at h
    obtain ⟨_, _, h3, _, h5, h6⟩ := h
    refine ⟨?_, ?_, ?_⟩
    · rw [h3, hwb]; rfl
    · exact h5.mpr hgub
    · rw [h6, hpb]; rfl
